import Mathlib

/-!
Shallow embedding of the DAWS event-reporting core (`dawsReporter.h`,
`dawsReporter.cpp`): the `Reporter` registry (intrusive singly linked list
built at construction), the per-reporter record slots `_lastRep` and
`_overRunRep`, the bounded FIFO channel `_reportQueue` (capacity 16, holding
references to slots, not copies), the two `uint16_t` incident counters, and
the operations `Reporter::Reporter`, `Reporter::queueReport` and
`Reporter::tryGetReport`.

Reporter objects are identified by their construction index; a `report_t*`
held in the rtos queue is modelled as a reference naming the owning reporter
and which of its two member slots it points at, dereferenced against the
current store at retrieval time exactly as a pointer would be.  Machine
integers are Nat with explicit reduction: `byte` ids modulo 256, the
`uint16_t` counters modulo 65536, and `micros()` (an `unsigned long` on the
32-bit mbed target) modulo 2^32.
-/

namespace Daws

/-- EventType from `dawsReporter.h` (an `enum : byte`, values 0, 1, ...). -/
abbrev EventType := Nat

def REPORT_OVERRUN : EventType := 0

def LOCO_STOP : EventType := 1

def VL53_RANGE_CLOSE : EventType := 2

def VL53_RANGE_NORMAL : EventType := 3

def VL53_OUT_OF_RANGE : EventType := 4

def VL53_ERR : EventType := 5

def NTAG_NDEF : EventType := 6

def NTAG_NONDEF : EventType := 7

/-- ReporterType from `dawsReporter.h` (an `enum : char`). -/
abbrev ReporterType := Char

def SERVO_REP : ReporterType := 'S'

def VL53_REP : ReporterType := 'V'

def ODO_REP : ReporterType := 'O'

/-- The value stored from a `micros()` call: an `unsigned long` (32-bit),
`t` being the environment-supplied reading. -/
def micros (t : Nat) : Nat := t % 4294967296

/-- report_t from `dawsReporter.h`. -/
structure Report where
  repType : EventType
  source : Nat
  timeStampIn : Nat
  timeStampOut : Nat
  info : Int
deriving DecidableEq

instance : Inhabited Report := ⟨⟨0, 0, 0, 0, 0⟩⟩

/-- Per-object state of one `Reporter`: its `_id`, its `_nextReporter` chain
link (as the construction index of the next reporter), and its two record
slots `_lastRep` and `_overRunRep`. -/
structure ReporterState where
  id : Nat
  nextReporter : Option Nat
  lastRep : Report
  overRunRep : Report
deriving DecidableEq

instance : Inhabited ReporterState := ⟨⟨0, none, default, default⟩⟩

/-- Which member slot of a reporter a queued `report_t*` points at. -/
inductive Slot where
  | lastRep : Slot
  | overRunRep : Slot
deriving DecidableEq

/-- A `report_t*` as held in `_reportQueue`: the owning reporter's
construction index and the member slot pointed at. -/
structure Ref where
  owner : Nat
  slot : Slot
deriving DecidableEq

/-- The process-wide state: all constructed reporters in construction order,
the static registry pointers `_firstReporter` and `_lastInstantiated`, the
static `_lastId`, the rtos queue contents (FIFO list of references), and the
two incident counters. -/
structure SysState where
  reporters : List ReporterState
  firstReporter : Option Nat
  lastInstantiated : Option Nat
  lastId : Nat
  queue : List Ref
  overRunCount : Nat
  queueFullCount : Nat
deriving DecidableEq

/-- Static initial state: null pointers, zero id, empty queue, zero
counters. -/
def initState : SysState := ⟨[], none, none, 0, [], 0, 0⟩

/-- Registry bookkeeping shared by both constructor bodies: append the new
object, and if a first reporter already exists, `_link` the previous
`_lastInstantiated` to the new object; then the new object becomes
`_lastInstantiated`. -/
def registerTail (r : ReporterState) (s : SysState) : SysState :=
  let idx := s.reporters.length
  let rs := s.reporters ++ [r]
  match s.firstReporter, s.lastInstantiated with
  | none, _ =>
      { s with reporters := rs, firstReporter := some idx, lastInstantiated := some idx }
  | some f, some l =>
      { s with
        reporters := rs.set l { rs.getD l default with nextReporter := some idx },
        firstReporter := some f, lastInstantiated := some idx }
  | some f, none =>
      { s with reporters := rs, firstReporter := some f, lastInstantiated := some idx }

/-- `Reporter::Reporter(ReporterType)` (auto id).  `junk` is the
indeterminate initial content of the member slots: the body assigns
`_id = ++_lastId`, links into the registry, nulls `_nextReporter`, and sets
`_lastRep.timeStampIn = 0` and `_lastRep.timeStampOut = 0`; no other slot
field is written (in particular `_overRunRep` is untouched).  The `type`
argument is unused by the body (the type is held by the derived class). -/
def reporterCtorAuto (type : ReporterType) (junk : ReporterState) (s : SysState) : SysState :=
  let newId := (s.lastId + 1) % 256
  let r : ReporterState :=
    { junk with
      id := newId, nextReporter := none,
      lastRep := { junk.lastRep with timeStampIn := 0, timeStampOut := 0 } }
  { registerTail r s with lastId := newId }

/-- `Reporter::Reporter(ReporterType, byte)` (caller-supplied id,
deprecated).  Assigns `_id = id`, links into the registry and nulls
`_nextReporter`; neither record slot is written and `_lastId` is not
advanced. -/
def reporterCtorWithId (type : ReporterType) (id : Nat) (junk : ReporterState)
    (s : SysState) : SysState :=
  let r : ReporterState := { junk with id := id % 256, nextReporter := none }
  registerTail r s

/-- `Reporter::getFirstReporter()`. -/
def getFirstReporter (s : SysState) : Option Nat := s.firstReporter

/-- `Reporter::getNextReporter()` on the reporter with construction index
`i`. -/
def getNextReporter (s : SysState) (i : Nat) : Option Nat :=
  (s.reporters.getD i default).nextReporter

/-- `Reporter::getId()` on the reporter with construction index `i`. -/
def getId (s : SysState) (i : Nat) : Nat := (s.reporters.getD i default).id

/-- `rtos::Queue<report_t, 16>::try_put`: non-blocking insert of a reference,
failing (and here counting the failure as `queueReport` does) when the queue
already holds 16 entries. -/
def tryPut (s : SysState) (r : Ref) : SysState :=
  if s.queue.length < 16 then { s with queue := s.queue ++ [r] }
  else { s with queueFullCount := (s.queueFullCount + 1) % 65536 }

/-- The slot `Reporter::queueReport` selects as `rp`: the overrun slot when
`_lastRep.timeStampIn > 0` (previous report unacknowledged), the current
slot otherwise. -/
def chosenSlot (s : SysState) (i : Nat) : Slot :=
  if (s.reporters.getD i default).lastRep.timeStampIn > 0 then Slot.overRunRep
  else Slot.lastRep

/-- `Reporter::queueReport(EventType repType, int info)` on the reporter with
construction index `i`, with `now` the environment's `micros()` reading.  On
overrun the overrun slot receives `repType = REPORT_OVERRUN` and
`info = repType` (the argument of this call); otherwise the current slot
receives the given `repType` and `info`.  Either way the chosen slot gets
`source = this`, `timeStampIn = micros()`, `timeStampOut = 0`, and a
reference to it is offered to the queue, the full counter counting a
failure. -/
def queueReport (s : SysState) (i : Nat) (repType : EventType) (info : Int)
    (now : Nat) : SysState :=
  let r := s.reporters.getD i default
  if r.lastRep.timeStampIn > 0 then
    let rp : Report :=
      { repType := REPORT_OVERRUN, source := i, timeStampIn := micros now,
        timeStampOut := 0, info := (repType : Int) }
    let s' : SysState :=
      { s with
        reporters := s.reporters.set i { r with overRunRep := rp },
        overRunCount := (s.overRunCount + 1) % 65536 }
    tryPut s' ⟨i, Slot.overRunRep⟩
  else
    let rp : Report :=
      { repType := repType, source := i, timeStampIn := micros now,
        timeStampOut := 0, info := info }
    let s' : SysState :=
      { s with reporters := s.reporters.set i { r with lastRep := rp } }
    tryPut s' ⟨i, Slot.lastRep⟩

/-- Dereference a queued pointer against a reporter's current slots. -/
def derefSlot (r : ReporterState) : Slot → Report
  | Slot.lastRep => r.lastRep
  | Slot.overRunRep => r.overRunRep

/-- Store back through a queued pointer. -/
def setSlot (r : ReporterState) : Slot → Report → ReporterState
  | Slot.lastRep, rep => { r with lastRep := rep }
  | Slot.overRunRep, rep => { r with overRunRep := rep }

/-- Result of `tryGetReport`: the Bool return, the caller's `report_t`
(out-parameter `*rdp`) after the call, and the process state after the
call. -/
structure GetResult where
  found : Bool
  rd : Report
  state : SysState
deriving DecidableEq

/-- `Reporter::tryGetReport(report_t* rdp, duration waitTime)` with `rd` the
caller structure's prior content and `now` the environment's `micros()`
reading.  In this sequential embedding `try_get_for` yields an entry exactly
when the queue is nonempty at the call (no producer runs during the wait).
On success all data fields are copied to the caller, `micros()` is stamped
as `timeStampOut` on both copy and source, and the source's `timeStampIn` is
cleared to 0. -/
def tryGetReportFor (waitTime : Nat) (rd : Report) (s : SysState) (now : Nat) : GetResult :=
  match s.queue with
  | [] => ⟨false, rd, s⟩
  | ref :: rest =>
    let r := s.reporters.getD ref.owner default
    let src := derefSlot r ref.slot
    let copied : Report :=
      { repType := src.repType, source := src.source, timeStampIn := src.timeStampIn,
        timeStampOut := micros now, info := src.info }
    let src' : Report := { src with timeStampOut := micros now, timeStampIn := 0 }
    ⟨true, copied,
      { s with queue := rest,
               reporters := s.reporters.set ref.owner (setSlot r ref.slot src') }⟩

/-- `Reporter::tryGetReport(report_t* rdp)`: delegates with a zero wait. -/
def tryGetReport0 (rd : Report) (s : SysState) (now : Nat) : GetResult :=
  tryGetReportFor 0 rd s now

/-- One externally invokable operation of the core. -/
inductive Op where
  | ctorAuto (type : ReporterType) (junk : ReporterState) : Op
  | ctorWithId (type : ReporterType) (id : Nat) (junk : ReporterState) : Op
  | submit (i : Nat) (repType : EventType) (info : Int) (now : Nat) : Op
  | retrieve (waitTime : Nat) (rd : Report) (now : Nat) : Op
deriving DecidableEq

/-- State transition of one operation. -/
def step (op : Op) (s : SysState) : SysState :=
  match op with
  | Op.ctorAuto t j => reporterCtorAuto t j s
  | Op.ctorWithId t id j => reporterCtorWithId t id j s
  | Op.submit i k info now => queueReport s i k info now
  | Op.retrieve w rd now => (tryGetReportFor w rd s now).state

/-- References successfully inserted into the queue by one operation (one on
a submission finding space, none otherwise). -/
def enqOf (op : Op) (s : SysState) : List Ref :=
  match op with
  | Op.submit i _ _ _ => if s.queue.length < 16 then [⟨i, chosenSlot s i⟩] else []
  | _ => []

/-- References removed from the queue by one operation (the head on a
retrieval finding the queue nonempty, none otherwise). -/
def deqOf (op : Op) (s : SysState) : List Ref :=
  match op with
  | Op.retrieve _ _ _ =>
    match s.queue with
    | [] => []
    | ref :: _ => [ref]
  | _ => []

/-- All references successfully inserted over a run, in insertion order. -/
def runEnq : List Op → SysState → List Ref
  | [], _ => []
  | op :: ops, s => enqOf op s ++ runEnq ops (step op s)

/-- All references retrieved over a run, in retrieval order. -/
def runDeq : List Op → SysState → List Ref
  | [], _ => []
  | op :: ops, s => deqOf op s ++ runDeq ops (step op s)

/-- Final state of a run. -/
def runState : List Op → SysState → SysState
  | [], s => s
  | op :: ops, s => runState ops (step op s)

/-- Whether an operation is a constructor call. -/
def Op.isCtor : Op → Bool
  | Op.ctorAuto _ _ => true
  | Op.ctorWithId _ _ _ => true
  | _ => false

/-- Registry traversal: follow `getNextReporter` links from a starting
reporter, with explicit fuel to keep the chase total on arbitrary states. -/
def traverseFrom (s : SysState) : Nat → Option Nat → List Nat
  | _, none => []
  | 0, some _ => []
  | fuel + 1, some i => i :: traverseFrom s fuel (getNextReporter s i)

/-- Shape of the intrusive registry after a sequence of constructions:
`_firstReporter` is the first constructed object, `_lastInstantiated` the
last, and each object's `_nextReporter` points to the next constructed one
(null on the last). -/
def ChainInv (s : SysState) : Prop :=
  (s.firstReporter = if s.reporters.length = 0 then none else some 0) ∧
  (s.lastInstantiated =
    if s.reporters.length = 0 then none else some (s.reporters.length - 1)) ∧
  ∀ j, j < s.reporters.length →
    (s.reporters.getD j default).nextReporter =
      (if j + 1 < s.reporters.length then some (j + 1) else none)

instance (s : SysState) : Decidable (ChainInv s) := by
  unfold ChainInv
  exact inferInstance

/-- Whether an operation increments `_overRunCount`: a submission finding
its producer's current record unacknowledged. -/
def overrunTrigger (op : Op) (s : SysState) : Bool :=
  match op with
  | Op.submit i _ _ _ => 0 < (s.reporters.getD i default).lastRep.timeStampIn
  | _ => false

/-- Whether an operation increments `_queueFullCount`: a submission finding
the queue at capacity. -/
def fullTrigger (op : Op) (s : SysState) : Bool :=
  match op with
  | Op.submit _ _ _ _ => 16 ≤ s.queue.length
  | _ => false

/-- Repeated `queueReport` calls from reporter 0, used to drive the overrun
counter around its `uint16_t` range. -/
def submitIter : Nat → SysState → SysState
  | 0, s => s
  | m + 1, s => queueReport (submitIter m s) 0 LOCO_STOP 0 1

/-- One reporter, one fresh submission: its current record is
unacknowledged, so every further submission is an overrun. -/
def c7base : SysState :=
  queueReport (reporterCtorAuto SERVO_REP default initState) 0 LOCO_STOP 0 1

/-- Scenario: one reporter constructed. -/
def c1s1 : SysState := reporterCtorAuto VL53_REP default initState

/-- Scenario: first submission (kind `VL53_RANGE_CLOSE`, payload 10) at
time 1. -/
def c1s2 : SysState := queueReport c1s1 0 VL53_RANGE_CLOSE 10 1

/-- Scenario: second submission (kind `LOCO_STOP`, payload 11) at time 2,
before any retrieval: an overrun. -/
def c1s3 : SysState := queueReport c1s2 0 LOCO_STOP 11 2

/-- Scenario: first retrieval (dequeues the current-record reference). -/
def c2g1 : GetResult := tryGetReportFor 0 default c1s3 3

/-- Scenario: a further submission after the first retrieval (fresh, since
the current record was released). -/
def c2s4 : SysState := queueReport c2g1.state 0 VL53_RANGE_NORMAL 12 4

/-- Scenario: second retrieval: dequeues the pending overrun-slot
reference. -/
def c2g2 : GetResult := tryGetReportFor 0 default c2s4 5

/-- Scenario: submission after the second (successful) retrieval. -/
def c2after : SysState := queueReport c2g2.state 0 VL53_ERR 13 6

/-- Indeterminate constructor-time slot contents with nonzero timestamps. -/
def junkC5 : ReporterState :=
  { id := 99, nextReporter := some 42,
    lastRep := ⟨3, 4, 7, 8, 9⟩, overRunRep := ⟨1, 2, 5, 6, 7⟩ }

/-- A state whose channel is at capacity: one reporter, 16 queued
references. -/
def c4full : SysState :=
  { reporters := [default], firstReporter := some 0, lastInstantiated := some 0,
    lastId := 1, queue := List.replicate 16 ⟨0, Slot.lastRep⟩,
    overRunCount := 0, queueFullCount := 0 }

/-! Helper lemmas. -/

theorem getD_set_self (l : List ReporterState) (i : Nat) (a d : ReporterState)
    (h : i < l.length) : (l.set i a).getD i d = a := by
  rw [List.getD_eq_getElem _ _ (by simpa using h)]
  exact List.getElem_set_self _

theorem getD_set_ne (l : List ReporterState) {i j : Nat} (a d : ReporterState)
    (hne : i ≠ j) : (l.set i a).getD j d = l.getD j d := by
  by_cases hj : j < l.length
  · rw [List.getD_eq_getElem _ _ (by simpa using hj), List.getD_eq_getElem _ _ hj]
    exact List.getElem_set_ne hne _
  · rw [List.getD_eq_default _ _ (by simpa using Nat.le_of_not_lt hj),
      List.getD_eq_default _ _ (Nat.le_of_not_lt hj)]

theorem getD_append_self (l : List ReporterState) (r d : ReporterState) :
    (l ++ [r]).getD l.length d = r := by
  rw [List.getD_append_right _ _ _ _ (Nat.le_refl _), Nat.sub_self]
  rfl

theorem derefSlot_setSlot (r : ReporterState) (sl : Slot) (rep : Report) :
    derefSlot (setSlot r sl rep) sl = rep := by
  cases sl <;> rfl

theorem tryPut_reporters (s : SysState) (r : Ref) :
    (tryPut s r).reporters = s.reporters := by
  unfold tryPut; split <;> rfl

theorem tryPut_overRunCount (s : SysState) (r : Ref) :
    (tryPut s r).overRunCount = s.overRunCount := by
  unfold tryPut; split <;> rfl

theorem tryPut_success (s : SysState) (r : Ref) (h : s.queue.length < 16) :
    tryPut s r = { s with queue := s.queue ++ [r] } := by
  unfold tryPut; rw [if_pos h]

theorem tryPut_full (s : SysState) (r : Ref) (h : ¬s.queue.length < 16) :
    tryPut s r = { s with queueFullCount := (s.queueFullCount + 1) % 65536 } := by
  unfold tryPut; rw [if_neg h]

theorem queueReport_overrun (s : SysState) (i : Nat) (k : EventType) (info : Int)
    (now : Nat) (hun : 0 < (s.reporters.getD i default).lastRep.timeStampIn) :
    queueReport s i k info now =
      tryPut
        { s with
          reporters := s.reporters.set i
            { s.reporters.getD i default with
              overRunRep :=
                { repType := REPORT_OVERRUN, source := i, timeStampIn := micros now,
                  timeStampOut := 0, info := (k : Int) } },
          overRunCount := (s.overRunCount + 1) % 65536 }
        ⟨i, Slot.overRunRep⟩ := by
  unfold queueReport
  rw [if_pos hun]

theorem queueReport_fresh (s : SysState) (i : Nat) (k : EventType) (info : Int)
    (now : Nat) (hz : ¬0 < (s.reporters.getD i default).lastRep.timeStampIn) :
    queueReport s i k info now =
      tryPut
        { s with
          reporters := s.reporters.set i
            { s.reporters.getD i default with
              lastRep :=
                { repType := k, source := i, timeStampIn := micros now,
                  timeStampOut := 0, info := info } } }
        ⟨i, Slot.lastRep⟩ := by
  unfold queueReport
  rw [if_neg hz]

theorem registerTail_queue (r : ReporterState) (s : SysState) :
    (registerTail r s).queue = s.queue := by
  unfold registerTail
  cases s.firstReporter <;> cases s.lastInstantiated <;> rfl

theorem registerTail_counts (r : ReporterState) (s : SysState) :
    (registerTail r s).overRunCount = s.overRunCount ∧
    (registerTail r s).queueFullCount = s.queueFullCount := by
  unfold registerTail
  cases s.firstReporter <;> cases s.lastInstantiated <;> exact ⟨rfl, rfl⟩

/-! Claim theorems. -/

/-- C8: the zero-wait retrieval delegates to the timed retrieval with a zero
wait; a retrieval reports "not found" exactly when the channel holds no
record at the call (in this sequential embedding nothing arrives during the
wait), and otherwise reports found with a record. -/
theorem c8_timeout_semantics (w : Nat) (rd : Report) (s : SysState) (now : Nat) :
    tryGetReport0 rd s now = tryGetReportFor 0 rd s now ∧
    ((tryGetReportFor w rd s now).found = false ↔ s.queue = []) := by
  refine ⟨rfl, ?_⟩
  cases h : s.queue with
  | nil => simp [tryGetReportFor, h]
  | cons ref rest => simp [tryGetReportFor, h]

/-- C9: a retrieval that returns false leaves the caller's structure and the
whole process state (slots, counters, channel) unchanged. -/
theorem c9_failed_retrieval_frame (w : Nat) (rd : Report) (s : SysState) (now : Nat)
    (h : (tryGetReportFor w rd s now).found = false) :
    tryGetReportFor w rd s now = ⟨false, rd, s⟩ := by
  cases hq : s.queue with
  | nil => simp [tryGetReportFor, hq]
  | cons ref rest => simp [tryGetReportFor, hq] at h

/-- C9 witness: a concrete failed retrieval on the empty initial state. -/
theorem c9_failed_retrieval_frame_witness :
    tryGetReportFor 7 default initState 5 = ⟨false, default, initState⟩ :=
  c9_failed_retrieval_frame 7 default initState 5 (by decide)

/-- C1 counterexample: reporter 0 submits kind `VL53_RANGE_CLOSE` (2), then
kind `LOCO_STOP` (1) before any retrieval.  The overrun record's payload is
1, the kind of the second (new) submission, not 2, the original first
event's kind as the claim states. -/
theorem c1_payload_counterexample :
    (c1s2.reporters.getD 0 default).lastRep.repType = VL53_RANGE_CLOSE ∧
    0 < (c1s2.reporters.getD 0 default).lastRep.timeStampIn ∧
    (c1s3.reporters.getD 0 default).overRunRep.repType = REPORT_OVERRUN ∧
    (c1s3.reporters.getD 0 default).overRunRep.info = (LOCO_STOP : Int) ∧
    (c1s3.reporters.getD 0 default).overRunRep.info ≠ (VL53_RANGE_CLOSE : Int) := by
  decide

/-- C1 (amended): a submission finding the current record unacknowledged
routes through the overrun slot: exactly one entry (a reference to the
overrun slot) reaches the channel, the overrun record's kind is
`REPORT_OVERRUN`, its payload is the kind of this (new) submission, and the
overrun counter increments by exactly 1. -/
theorem c1_overrun_submission (s : SysState) (i : Nat) (k : EventType) (info : Int)
    (now : Nat) (hi : i < s.reporters.length)
    (hun : 0 < (s.reporters.getD i default).lastRep.timeStampIn)
    (hq : s.queue.length < 16) (hc : s.overRunCount < 65535) :
    (queueReport s i k info now).queue = s.queue ++ [⟨i, Slot.overRunRep⟩] ∧
    ((queueReport s i k info now).reporters.getD i default).overRunRep
      = { repType := REPORT_OVERRUN, source := i, timeStampIn := micros now,
          timeStampOut := 0, info := (k : Int) } ∧
    (queueReport s i k info now).overRunCount = s.overRunCount + 1 := by
  rw [queueReport_overrun s i k info now hun, tryPut_success _ _ (by simpa using hq)]
  refine ⟨rfl, ?_, ?_⟩
  · dsimp only
    rw [getD_set_self s.reporters i _ default hi]
  · dsimp only
    rw [Nat.mod_eq_of_lt (by omega)]

/-- C1 witness: the concrete overrun submission of the scenario. -/
theorem c1_overrun_submission_witness :
    (queueReport c1s2 0 LOCO_STOP 11 2).overRunCount = c1s2.overRunCount + 1 :=
  (c1_overrun_submission c1s2 0 LOCO_STOP 11 2 (by decide) (by decide) (by decide)
    (by decide)).2.2

/-- C10: the branch taken by `queueReport` depends only on the current
record's `timeStampIn`.  When it is nonzero the overrun slot is overwritten
with a fresh overrun record and one more reference to that same slot is
appended to the channel — with no condition on the overrun slot's own state,
so in particular even when an earlier reference to it is still pending in
the channel — and the current record is untouched; when it is zero the
current record is overwritten and a reference to it is appended, the
overrun slot untouched. -/
theorem c10_overrun_decision (s : SysState) (i : Nat) (k : EventType) (info : Int)
    (now : Nat) (hi : i < s.reporters.length) (hq : s.queue.length < 16) :
    (0 < (s.reporters.getD i default).lastRep.timeStampIn →
      (queueReport s i k info now).queue = s.queue ++ [⟨i, Slot.overRunRep⟩] ∧
      ((queueReport s i k info now).reporters.getD i default).lastRep
        = (s.reporters.getD i default).lastRep ∧
      ((queueReport s i k info now).reporters.getD i default).overRunRep
        = { repType := REPORT_OVERRUN, source := i, timeStampIn := micros now,
            timeStampOut := 0, info := (k : Int) }) ∧
    ((s.reporters.getD i default).lastRep.timeStampIn = 0 →
      (queueReport s i k info now).queue = s.queue ++ [⟨i, Slot.lastRep⟩] ∧
      ((queueReport s i k info now).reporters.getD i default).overRunRep
        = (s.reporters.getD i default).overRunRep ∧
      ((queueReport s i k info now).reporters.getD i default).lastRep
        = { repType := k, source := i, timeStampIn := micros now,
            timeStampOut := 0, info := info }) := by
  constructor
  · intro hun
    rw [queueReport_overrun s i k info now hun, tryPut_success _ _ (by simpa using hq)]
    refine ⟨rfl, ?_, ?_⟩ <;>
      · dsimp only
        rw [getD_set_self s.reporters i _ default hi]
  · intro hz
    rw [queueReport_fresh s i k info now (by omega),
      tryPut_success _ _ (by simpa using hq)]
    refine ⟨rfl, ?_, ?_⟩ <;>
      · dsimp only
        rw [getD_set_self s.reporters i _ default hi]

/-- C10 witness: in the scenario state an overrun-slot reference is already
pending in the channel and the overrun slot's own timestamp is nonzero, yet
a further submission still overwrites that slot and appends another
reference to it. -/
theorem c10_overrun_decision_witness :
    (⟨0, Slot.overRunRep⟩ : Ref) ∈ c1s3.queue ∧
    0 < (c1s3.reporters.getD 0 default).overRunRep.timeStampIn ∧
    (queueReport c1s3 0 VL53_ERR 12 7).queue = c1s3.queue ++ [⟨0, Slot.overRunRep⟩] :=
  ⟨by decide, by decide,
    ((c10_overrun_decision c1s3 0 VL53_ERR 12 7 (by decide) (by decide)).1
      (by decide)).1⟩

/-- C4: a submission finding the channel holding 16 references is dropped:
the channel is unchanged (no 17th entry ever retrievable), the full counter
increments by exactly 1, and the slot used for the submission is left marked
submitted (nonzero `timeStampIn`) although no reference reached the
channel. -/
theorem c4_drop_under_saturation (s : SysState) (i : Nat) (k : EventType) (info : Int)
    (now : Nat) (hi : i < s.reporters.length) (hq : s.queue.length = 16)
    (hc : s.queueFullCount < 65535) (ht : micros now ≠ 0) :
    (queueReport s i k info now).queue = s.queue ∧
    (queueReport s i k info now).queueFullCount = s.queueFullCount + 1 ∧
    0 < (derefSlot ((queueReport s i k info now).reporters.getD i default)
          (chosenSlot s i)).timeStampIn := by
  by_cases hun : 0 < (s.reporters.getD i default).lastRep.timeStampIn
  · rw [queueReport_overrun s i k info now hun, tryPut_full _ _ (by simp [hq])]
    refine ⟨rfl, ?_, ?_⟩
    · dsimp only
      rw [Nat.mod_eq_of_lt (by omega)]
    · unfold chosenSlot
      rw [if_pos hun]
      dsimp only
      rw [getD_set_self s.reporters i _ default hi]
      exact Nat.pos_of_ne_zero ht
  · rw [queueReport_fresh s i k info now hun, tryPut_full _ _ (by simp [hq])]
    refine ⟨rfl, ?_, ?_⟩
    · dsimp only
      rw [Nat.mod_eq_of_lt (by omega)]
    · unfold chosenSlot
      rw [if_neg hun]
      dsimp only
      rw [getD_set_self s.reporters i _ default hi]
      exact Nat.pos_of_ne_zero ht

/-- C4 witness: a drop on the concrete at-capacity state. -/
theorem c4_drop_under_saturation_witness :
    (queueReport c4full 0 LOCO_STOP 3 9).queue = c4full.queue ∧
    (queueReport c4full 0 LOCO_STOP 3 9).queueFullCount = c4full.queueFullCount + 1 :=
  ⟨(c4_drop_under_saturation c4full 0 LOCO_STOP 3 9 (by decide) (by decide) (by decide)
      (by decide)).1,
   (c4_drop_under_saturation c4full 0 LOCO_STOP 3 9 (by decide) (by decide) (by decide)
      (by decide)).2.1⟩

theorem tryGetReportFor_cons (w : Nat) (rd : Report) (s : SysState) (now : Nat)
    (ref : Ref) (rest : List Ref) (hq : s.queue = ref :: rest) :
    tryGetReportFor w rd s now =
      ⟨true,
       { repType := (derefSlot (s.reporters.getD ref.owner default) ref.slot).repType,
         source := (derefSlot (s.reporters.getD ref.owner default) ref.slot).source,
         timeStampIn :=
           (derefSlot (s.reporters.getD ref.owner default) ref.slot).timeStampIn,
         timeStampOut := micros now,
         info := (derefSlot (s.reporters.getD ref.owner default) ref.slot).info },
       { s with
         queue := rest,
         reporters := s.reporters.set ref.owner
           (setSlot (s.reporters.getD ref.owner default) ref.slot
             { derefSlot (s.reporters.getD ref.owner default) ref.slot with
               timeStampOut := micros now, timeStampIn := 0 }) }⟩ := by
  unfold tryGetReportFor
  rw [hq]

theorem queueReport_overRunCount_fresh (s : SysState) (i : Nat) (k : EventType)
    (info : Int) (now : Nat)
    (hz : (s.reporters.getD i default).lastRep.timeStampIn = 0) :
    (queueReport s i k info now).overRunCount = s.overRunCount := by
  rw [queueReport_fresh s i k info now (by omega), tryPut_overRunCount]

/-- C2 counterexample: after the scenario's second successful retrieval
(which returns reporter 0's overrun record), a new submission from
reporter 0 is treated as an overrun, not as a fresh submission: the overrun
counter increments, the overrun slot is rewritten with the overrun tag, and
the current record is not used. -/
theorem c2_fresh_after_retrieval_counterexample :
    c2g2.found = true ∧
    c2g2.rd.source = 0 ∧
    c2after.overRunCount = c2g2.state.overRunCount + 1 ∧
    (c2after.reporters.getD 0 default).overRunRep.repType = REPORT_OVERRUN ∧
    (c2after.reporters.getD 0 default).lastRep
      = (c2g2.state.reporters.getD 0 default).lastRep := by
  decide

/-- C2 (amended): on every successful retrieval the consumer copies all
record fields (`repType`, `source`, `info`, `timeStampIn`) into the caller's
structure, stamps `micros()` as `timeStampOut` on both the copy and the
referenced slot, clears that slot's `timeStampIn` to 0, and changes no
counter; when the retrieved reference is the producer's current-record slot,
a subsequent submission from that producer is treated as fresh (no overrun
count).  (A retrieval of an overrun-slot reference does not release the
current record, so a later submission can still be an overrun.) -/
theorem c2_retrieval_releases_slot (w : Nat) (rd : Report) (s : SysState) (now : Nat)
    (ref : Ref) (rest : List Ref) (hq : s.queue = ref :: rest)
    (hi : ref.owner < s.reporters.length) :
    (tryGetReportFor w rd s now).found = true ∧
    (tryGetReportFor w rd s now).rd =
      { repType := (derefSlot (s.reporters.getD ref.owner default) ref.slot).repType,
        source := (derefSlot (s.reporters.getD ref.owner default) ref.slot).source,
        timeStampIn :=
          (derefSlot (s.reporters.getD ref.owner default) ref.slot).timeStampIn,
        timeStampOut := micros now,
        info := (derefSlot (s.reporters.getD ref.owner default) ref.slot).info } ∧
    derefSlot ((tryGetReportFor w rd s now).state.reporters.getD ref.owner default)
        ref.slot
      = { derefSlot (s.reporters.getD ref.owner default) ref.slot with
          timeStampOut := micros now, timeStampIn := 0 } ∧
    (tryGetReportFor w rd s now).state.queue = rest ∧
    (tryGetReportFor w rd s now).state.overRunCount = s.overRunCount ∧
    (tryGetReportFor w rd s now).state.queueFullCount = s.queueFullCount ∧
    (ref.slot = Slot.lastRep → ∀ k2 info2 n2,
      (queueReport (tryGetReportFor w rd s now).state ref.owner k2 info2 n2).overRunCount
        = s.overRunCount) := by
  rw [tryGetReportFor_cons w rd s now ref rest hq]
  refine ⟨rfl, rfl, ?_, rfl, rfl, rfl, ?_⟩
  · dsimp only
    rw [getD_set_self s.reporters ref.owner _ default hi, derefSlot_setSlot]
  · intro hsl k2 info2 n2
    have hz : ((s.reporters.set ref.owner
        (setSlot (s.reporters.getD ref.owner default) ref.slot
          { derefSlot (s.reporters.getD ref.owner default) ref.slot with
            timeStampOut := micros now, timeStampIn := 0 })).getD ref.owner
        default).lastRep.timeStampIn = 0 := by
      rw [getD_set_self s.reporters ref.owner _ default hi, hsl]
      rfl
    dsimp only
    rw [queueReport_overRunCount_fresh _ _ _ _ _ hz]

/-- C2 witness: the scenario's first retrieval dequeues the current-record
reference; the submission that follows it is fresh. -/
theorem c2_retrieval_releases_slot_witness :
    (tryGetReportFor 0 default c1s3 3).found = true ∧
    (queueReport (tryGetReportFor 0 default c1s3 3).state 0 VL53_RANGE_NORMAL 12 4).overRunCount
      = c1s3.overRunCount :=
  ⟨(c2_retrieval_releases_slot 0 default c1s3 3 ⟨0, Slot.lastRep⟩
      [⟨0, Slot.overRunRep⟩] (by decide) (by decide)).1,
   (c2_retrieval_releases_slot 0 default c1s3 3 ⟨0, Slot.lastRep⟩
      [⟨0, Slot.overRunRep⟩] (by decide) (by decide)).2.2.2.2.2.2 rfl
      VL53_RANGE_NORMAL 12 4⟩

theorem chainInv_lastId (s : SysState) (v : Nat) :
    ChainInv { s with lastId := v } ↔ ChainInv s := Iff.rfl

theorem registerTail_new (r : ReporterState) (s : SysState) (h : ChainInv s) :
    (registerTail r s).reporters.getD s.reporters.length default = r ∧
    (registerTail r s).lastInstantiated = some s.reporters.length := by
  obtain ⟨h1, h2, -⟩ := h
  by_cases hz : s.reporters.length = 0
  · rw [if_pos hz] at h1
    rw [if_pos hz] at h2
    unfold registerTail
    rw [h1]
    exact ⟨getD_append_self s.reporters r default, rfl⟩
  · rw [if_neg hz] at h1
    rw [if_neg hz] at h2
    unfold registerTail
    rw [h1, h2]
    dsimp only
    constructor
    · rw [getD_set_ne _ _ _ (by omega), getD_append_self]
    · rfl

theorem registerTail_chainInv (r : ReporterState) (s : SysState)
    (hr : r.nextReporter = none) (h : ChainInv s) : ChainInv (registerTail r s) := by
  obtain ⟨h1, h2, h3⟩ := h
  by_cases hz : s.reporters.length = 0
  · have hnil : s.reporters = [] := List.length_eq_zero.mp hz
    rw [if_pos hz] at h1
    rw [if_pos hz] at h2
    unfold registerTail
    rw [h1, hnil]
    refine ⟨by simp, by simp, ?_⟩
    intro j hj
    simp only [List.nil_append, List.length_cons, List.length_nil] at hj ⊢
    interval_cases j
    · simpa using hr
  · rw [if_neg hz] at h1
    rw [if_neg hz] at h2
    unfold registerTail
    rw [h1, h2]
    dsimp only
    have hlen : ((s.reporters ++ [r]).set (s.reporters.length - 1)
        { (s.reporters ++ [r]).getD (s.reporters.length - 1) default with
          nextReporter := some s.reporters.length }).length
        = s.reporters.length + 1 := by
      simp [List.length_set, List.length_append]
    refine ⟨?_, ?_, ?_⟩
    · rw [hlen, if_neg (by omega)]
    · rw [hlen, if_neg (by omega)]
      simp
    · intro j hj
      rw [hlen] at hj
      rw [hlen]
      by_cases hjl : j = s.reporters.length - 1
      · subst hjl
        rw [getD_set_self _ _ _ _ (by simp [List.length_append]; omega)]
        dsimp only
        rw [if_pos (by omega)]
        congr 1
        omega
      · rw [getD_set_ne _ _ _ (by omega)]
        by_cases hje : j = s.reporters.length
        · subst hje
          rw [getD_append_self, hr, if_neg (by omega)]
        · have hjlt : j < s.reporters.length := by omega
          rw [List.getD_append _ _ _ _ hjlt, h3 j hjlt]
          have : j + 1 < s.reporters.length := by omega
          rw [if_pos this, if_pos (by omega)]

theorem reporterCtorAuto_chainInv (type : ReporterType) (junk : ReporterState)
    (s : SysState) (h : ChainInv s) : ChainInv (reporterCtorAuto type junk s) := by
  unfold reporterCtorAuto
  exact (chainInv_lastId _ _).mpr (registerTail_chainInv _ _ rfl h)

theorem reporterCtorWithId_chainInv (type : ReporterType) (id : Nat)
    (junk : ReporterState) (s : SysState) (h : ChainInv s) :
    ChainInv (reporterCtorWithId type id junk s) := by
  unfold reporterCtorWithId
  exact registerTail_chainInv _ _ rfl h

/-- C5 counterexample: constructing with indeterminate slot contents (as
after a reset with dirty memory), the auto-id constructor leaves the overrun
record's `timeStampIn` nonzero and the caller-supplied-id constructor leaves
even the current record's `timeStampIn` nonzero: neither initializes both
slots to the acknowledged state. -/
theorem c5_ctor_init_counterexample :
    ((reporterCtorAuto SERVO_REP junkC5 initState).reporters.getD 0
        default).overRunRep.timeStampIn ≠ 0 ∧
    ((reporterCtorWithId SERVO_REP 200 junkC5 initState).reporters.getD 0
        default).lastRep.timeStampIn ≠ 0 ∧
    ((reporterCtorWithId SERVO_REP 200 junkC5 initState).reporters.getD 0
        default).overRunRep.timeStampIn ≠ 0 := by
  decide

/-- C5 (amended): both constructors link the new producer to the registry
tail (preserving the chain shape, with the new producer last); the auto-id
constructor initializes only the current record's two timestamps to 0,
leaving the overrun record exactly as found, while the caller-supplied-id
constructor leaves both record slots exactly as found. -/
theorem c5_ctor_registration (type : ReporterType) (id : Nat) (junk : ReporterState)
    (s : SysState) (h : ChainInv s) :
    ((reporterCtorAuto type junk s).reporters.getD s.reporters.length default).lastRep
      = { junk.lastRep with timeStampIn := 0, timeStampOut := 0 } ∧
    ((reporterCtorAuto type junk s).reporters.getD s.reporters.length default).overRunRep
      = junk.overRunRep ∧
    (reporterCtorAuto type junk s).lastInstantiated = some s.reporters.length ∧
    ChainInv (reporterCtorAuto type junk s) ∧
    ((reporterCtorWithId type id junk s).reporters.getD s.reporters.length
        default).lastRep = junk.lastRep ∧
    ((reporterCtorWithId type id junk s).reporters.getD s.reporters.length
        default).overRunRep = junk.overRunRep ∧
    (reporterCtorWithId type id junk s).lastInstantiated = some s.reporters.length ∧
    ChainInv (reporterCtorWithId type id junk s) := by
  obtain ⟨ha1, ha2⟩ := registerTail_new
    { junk with
      id := (s.lastId + 1) % 256, nextReporter := none,
      lastRep := { junk.lastRep with timeStampIn := 0, timeStampOut := 0 } } s h
  obtain ⟨hb1, hb2⟩ := registerTail_new
    { junk with id := id % 256, nextReporter := none } s h
  refine ⟨?_, ?_, ?_, reporterCtorAuto_chainInv type junk s h, ?_, ?_, ?_,
    reporterCtorWithId_chainInv type id junk s h⟩
  · unfold reporterCtorAuto
    dsimp only
    rw [ha1]
  · unfold reporterCtorAuto
    dsimp only
    rw [ha1]
  · unfold reporterCtorAuto
    dsimp only
    rw [ha2]
  · unfold reporterCtorWithId
    dsimp only
    rw [hb1]
  · unfold reporterCtorWithId
    dsimp only
    rw [hb1]
  · unfold reporterCtorWithId
    dsimp only
    rw [hb2]

/-- C5 witness: the amended constructor facts at a concrete junk state. -/
theorem c5_ctor_registration_witness :
    ((reporterCtorAuto SERVO_REP junkC5 initState).reporters.getD 0 default).lastRep
      = { junkC5.lastRep with timeStampIn := 0, timeStampOut := 0 } ∧
    ((reporterCtorWithId SERVO_REP 200 junkC5 initState).reporters.getD 0
        default).lastRep = junkC5.lastRep :=
  ⟨(c5_ctor_registration SERVO_REP 200 junkC5 initState (by decide)).1,
   (c5_ctor_registration SERVO_REP 200 junkC5 initState (by decide)).2.2.2.2.1⟩

theorem pos_length_of_slot (s : SysState)
    (hp : 0 < (s.reporters.getD 0 default).lastRep.timeStampIn) :
    0 < s.reporters.length := by
  by_contra hcon
  have hz : s.reporters.length = 0 := by omega
  rw [List.length_eq_zero.mp hz, List.getD_nil] at hp
  exact absurd hp (by decide)

theorem submitIter_count (s : SysState) (hc : s.overRunCount < 65536)
    (hp : 0 < (s.reporters.getD 0 default).lastRep.timeStampIn) :
    ∀ n, 0 < ((submitIter n s).reporters.getD 0 default).lastRep.timeStampIn ∧
      (submitIter n s).overRunCount = (s.overRunCount + n) % 65536 := by
  intro n
  induction n with
  | zero =>
    refine ⟨hp, ?_⟩
    show s.overRunCount = (s.overRunCount + 0) % 65536
    rw [Nat.add_zero, Nat.mod_eq_of_lt hc]
  | succ m ih =>
    obtain ⟨ih1, ih2⟩ := ih
    have hlen := pos_length_of_slot _ ih1
    constructor
    · show 0 < ((queueReport (submitIter m s) 0 LOCO_STOP 0 1).reporters.getD 0
          default).lastRep.timeStampIn
      rw [queueReport_overrun _ _ _ _ _ ih1, tryPut_reporters]
      dsimp only
      rw [getD_set_self _ _ _ _ hlen]
      exact ih1
    · show (queueReport (submitIter m s) 0 LOCO_STOP 0 1).overRunCount = _
      rw [queueReport_overrun _ _ _ _ _ ih1, tryPut_overRunCount]
      dsimp only
      rw [ih2]
      omega

/-- C7 counterexample: the counters are `uint16_t`; on a reachable run
(one fresh submission, then 65536 overrunning submissions) the overrun
counter reads 65535 and the very next overrunning submission makes it read
0 — the counter is not monotonically increasing over the process
lifetime. -/
theorem c7_wrap_counterexample :
    submitIter 65536 c7base = queueReport (submitIter 65535 c7base) 0 LOCO_STOP 0 1 ∧
    (submitIter 65535 c7base).overRunCount = 65535 ∧
    (submitIter 65536 c7base).overRunCount = 0 := by
  have h1 := (submitIter_count c7base (by decide) (by decide) 65535).2
  have h2 := (submitIter_count c7base (by decide) (by decide) 65536).2
  have hc : c7base.overRunCount = 0 := by decide
  rw [hc] at h1 h2
  exact ⟨rfl, by rw [h1], by rw [h2]⟩

/-- C7 (amended): each counter is written only by its documented trigger —
`_overRunCount` by a submission finding the current record unacknowledged,
`_queueFullCount` by a submission finding the channel at capacity — and the
write is an increment by 1 modulo 2^16; in particular, while a counter is
below 65535 no operation decreases or resets it.  (The source declares
`getQueueFullCount` but no accessor is implemented; the counters live in
process-wide statics.) -/
theorem c7_counter_updates (op : Op) (s : SysState)
    (ho : s.overRunCount < 65535) (hf : s.queueFullCount < 65535) :
    (step op s).overRunCount
      = (if overrunTrigger op s then s.overRunCount + 1 else s.overRunCount) ∧
    (step op s).queueFullCount
      = (if fullTrigger op s then s.queueFullCount + 1 else s.queueFullCount) ∧
    s.overRunCount ≤ (step op s).overRunCount ∧
    s.queueFullCount ≤ (step op s).queueFullCount := by
  have key : (step op s).overRunCount
      = (if overrunTrigger op s then s.overRunCount + 1 else s.overRunCount) ∧
      (step op s).queueFullCount
      = (if fullTrigger op s then s.queueFullCount + 1 else s.queueFullCount) := by
    cases op with
    | ctorAuto t j =>
      show (reporterCtorAuto t j s).overRunCount = _ ∧
        (reporterCtorAuto t j s).queueFullCount = _
      unfold reporterCtorAuto
      dsimp only
      exact ⟨(registerTail_counts _ s).1, (registerTail_counts _ s).2⟩
    | ctorWithId t id j =>
      show (reporterCtorWithId t id j s).overRunCount = _ ∧
        (reporterCtorWithId t id j s).queueFullCount = _
      unfold reporterCtorWithId
      dsimp only
      exact ⟨(registerTail_counts _ s).1, (registerTail_counts _ s).2⟩
    | submit i k info now =>
      show (queueReport s i k info now).overRunCount = _ ∧
        (queueReport s i k info now).queueFullCount = _
      simp only [overrunTrigger, fullTrigger, decide_eq_true_eq]
      by_cases hun : 0 < (s.reporters.getD i default).lastRep.timeStampIn
      · rw [if_pos hun, queueReport_overrun s i k info now hun]
        by_cases hql : s.queue.length < 16
        · rw [tryPut_success _ _ (by simpa using hql), if_neg (by omega)]
          constructor
          · dsimp only
            rw [Nat.mod_eq_of_lt (by omega)]
          · rfl
        · rw [tryPut_full _ _ (by simpa using hql), if_pos (by omega)]
          constructor
          · dsimp only
            rw [Nat.mod_eq_of_lt (by omega)]
          · dsimp only
            rw [Nat.mod_eq_of_lt (by omega)]
      · rw [if_neg hun, queueReport_fresh s i k info now hun]
        by_cases hql : s.queue.length < 16
        · rw [tryPut_success _ _ (by simpa using hql), if_neg (by omega)]
          exact ⟨rfl, rfl⟩
        · rw [tryPut_full _ _ (by simpa using hql), if_pos (by omega)]
          constructor
          · rfl
          · dsimp only
            rw [Nat.mod_eq_of_lt (by omega)]
    | retrieve w rd now =>
      show (tryGetReportFor w rd s now).state.overRunCount = _ ∧
        (tryGetReportFor w rd s now).state.queueFullCount = _
      cases hq : s.queue with
      | nil =>
        have hemp : tryGetReportFor w rd s now = ⟨false, rd, s⟩ := by
          unfold tryGetReportFor
          rw [hq]
        rw [hemp]
        exact ⟨rfl, rfl⟩
      | cons ref rest =>
        rw [tryGetReportFor_cons w rd s now ref rest hq]
        exact ⟨rfl, rfl⟩
  refine ⟨key.1, key.2, ?_, ?_⟩
  · rw [key.1]
    split <;> omega
  · rw [key.2]
    split <;> omega

/-- C7 witness: the amended counter facts at a concrete submission. -/
theorem c7_counter_updates_witness :
    initState.overRunCount < 65535 ∧ initState.queueFullCount < 65535 ∧
    ((step (Op.submit 0 LOCO_STOP 0 1) initState).overRunCount
      = (if overrunTrigger (Op.submit 0 LOCO_STOP 0 1) initState
         then initState.overRunCount + 1 else initState.overRunCount) ∧
     (step (Op.submit 0 LOCO_STOP 0 1) initState).queueFullCount
      = (if fullTrigger (Op.submit 0 LOCO_STOP 0 1) initState
         then initState.queueFullCount + 1 else initState.queueFullCount) ∧
     initState.overRunCount ≤ (step (Op.submit 0 LOCO_STOP 0 1) initState).overRunCount ∧
     initState.queueFullCount
       ≤ (step (Op.submit 0 LOCO_STOP 0 1) initState).queueFullCount) :=
  ⟨by decide, by decide,
   c7_counter_updates (Op.submit 0 LOCO_STOP 0 1) initState (by decide) (by decide)⟩

theorem step_queue_balance (op : Op) (s : SysState) :
    deqOf op s ++ (step op s).queue = s.queue ++ enqOf op s := by
  cases op with
  | ctorAuto t j =>
    simp only [deqOf, enqOf, List.nil_append, List.append_nil]
    show (reporterCtorAuto t j s).queue = s.queue
    unfold reporterCtorAuto
    dsimp only
    exact registerTail_queue _ s
  | ctorWithId t id j =>
    simp only [deqOf, enqOf, List.nil_append, List.append_nil]
    show (reporterCtorWithId t id j s).queue = s.queue
    unfold reporterCtorWithId
    dsimp only
    exact registerTail_queue _ s
  | submit i k info now =>
    simp only [deqOf, enqOf, List.nil_append]
    show (queueReport s i k info now).queue = _
    by_cases hun : 0 < (s.reporters.getD i default).lastRep.timeStampIn
    · rw [queueReport_overrun s i k info now hun]
      by_cases hql : s.queue.length < 16
      · rw [tryPut_success _ _ (by simpa using hql), if_pos hql]
        unfold chosenSlot
        rw [if_pos hun]
      · rw [tryPut_full _ _ (by simpa using hql), if_neg hql]
        simp
    · rw [queueReport_fresh s i k info now hun]
      by_cases hql : s.queue.length < 16
      · rw [tryPut_success _ _ (by simpa using hql), if_pos hql]
        unfold chosenSlot
        rw [if_neg hun]
      · rw [tryPut_full _ _ (by simpa using hql), if_neg hql]
        simp
  | retrieve w rd now =>
    cases hq : s.queue with
    | nil =>
      have hemp : tryGetReportFor w rd s now = ⟨false, rd, s⟩ := by
        unfold tryGetReportFor
        rw [hq]
      simp only [deqOf, enqOf, step, hq, hemp, List.nil_append, List.append_nil]
    | cons ref rest =>
      simp only [deqOf, enqOf, step, hq, tryGetReportFor_cons w rd s now ref rest hq,
        List.append_nil]
      rfl

theorem runTrace_balance (ops : List Op) :
    ∀ s : SysState, s.queue ++ runEnq ops s = runDeq ops s ++ (runState ops s).queue := by
  induction ops with
  | nil =>
    intro s
    simp [runEnq, runDeq, runState]
  | cons op ops ih =>
    intro s
    simp only [runEnq, runDeq, runState]
    rw [← List.append_assoc, ← step_queue_balance op s, List.append_assoc,
      ih (step op s), List.append_assoc]

/-- C3: FIFO across all producers — over any run of operations from the
initial state, the successfully inserted references, in insertion order,
are exactly the retrieved references in retrieval order followed by the
references still queued; retrieval order therefore equals channel-insertion
order. -/
theorem c3_fifo_order (ops : List Op) :
    runEnq ops initState = runDeq ops initState ++ (runState ops initState).queue := by
  have h := runTrace_balance ops initState
  rw [show initState.queue = [] from rfl, List.nil_append] at h
  exact h

theorem traverseFrom_none (s : SysState) (fuel : Nat) :
    traverseFrom s fuel none = [] := by
  cases fuel <;> rfl

theorem traverse_chain (s : SysState) (h : ChainInv s) :
    ∀ fuel i, i < s.reporters.length → s.reporters.length ≤ i + fuel →
      traverseFrom s fuel (some i) = List.range' i (s.reporters.length - i) := by
  intro fuel
  induction fuel with
  | zero =>
    intro i h1 h2
    omega
  | succ fuel ih =>
    intro i h1 h2
    have hnext := h.2.2 i h1
    show i :: traverseFrom s fuel (getNextReporter s i) = _
    unfold getNextReporter
    by_cases hlt : i + 1 < s.reporters.length
    · rw [hnext, if_pos hlt, ih (i + 1) hlt (by omega)]
      have hx : s.reporters.length - i = (s.reporters.length - (i + 1)) + 1 := by omega
      rw [hx, List.range'_succ]
    · rw [hnext, if_neg hlt, traverseFrom_none]
      have hx : s.reporters.length - i = 1 := by omega
      rw [hx]
      rfl

theorem registerTail_length (r : ReporterState) (s : SysState) :
    (registerTail r s).reporters.length = s.reporters.length + 1 := by
  unfold registerTail
  cases s.firstReporter <;> cases s.lastInstantiated <;>
    simp [List.length_set, List.length_append]

theorem runState_ctors (ops : List Op) :
    ∀ s, (∀ op ∈ ops, op.isCtor = true) → ChainInv s →
      ChainInv (runState ops s) ∧
      (runState ops s).reporters.length = s.reporters.length + ops.length := by
  induction ops with
  | nil =>
    intro s _ h
    exact ⟨h, by simp [runState]⟩
  | cons op ops ih =>
    intro s hall h
    have hop : op.isCtor = true := hall op (by simp)
    have hstep : ChainInv (step op s) ∧
        (step op s).reporters.length = s.reporters.length + 1 := by
      cases op with
      | ctorAuto t j =>
        refine ⟨reporterCtorAuto_chainInv t j s h, ?_⟩
        show (reporterCtorAuto t j s).reporters.length = _
        unfold reporterCtorAuto
        dsimp only
        exact registerTail_length _ s
      | ctorWithId t id j =>
        refine ⟨reporterCtorWithId_chainInv t id j s h, ?_⟩
        show (reporterCtorWithId t id j s).reporters.length = _
        unfold reporterCtorWithId
        dsimp only
        exact registerTail_length _ s
      | submit i k info now => simp [Op.isCtor] at hop
      | retrieve w rd now => simp [Op.isCtor] at hop
    obtain ⟨h1, h2⟩ := ih (step op s) (fun o ho => hall o (by simp [ho])) hstep.1
    refine ⟨h1, ?_⟩
    show (runState ops (step op s)).reporters.length = _
    rw [h2, hstep.2, List.length_cons]
    omega

/-- C6: before any construction `getFirstReporter` is the null sentinel;
after any sequence of constructor calls, following `getNextReporter` links
from `getFirstReporter` visits exactly the constructed producers, in
construction order, and the last producer's link is null. -/
theorem c6_registry_traversal (ops : List Op)
    (hall : ∀ op ∈ ops, op.isCtor = true) :
    getFirstReporter initState = none ∧
    (runState ops initState).reporters.length = ops.length ∧
    traverseFrom (runState ops initState) ops.length
      (getFirstReporter (runState ops initState)) = List.range ops.length ∧
    (0 < ops.length →
      getNextReporter (runState ops initState) (ops.length - 1) = none) := by
  obtain ⟨hinv, hlen⟩ := runState_ctors ops initState hall (by decide)
  have hlen' : (runState ops initState).reporters.length = ops.length := by
    rw [hlen, show initState.reporters.length = 0 from rfl, Nat.zero_add]
  refine ⟨rfl, hlen', ?_, ?_⟩
  · by_cases hz : ops.length = 0
    · rw [hz, show List.range 0 = [] from rfl]
      cases hx : getFirstReporter (runState ops initState) with
      | none => rfl
      | some v => rfl
    · have hfirst : getFirstReporter (runState ops initState) = some 0 := by
        show (runState ops initState).firstReporter = some 0
        rw [hinv.1, if_neg (by omega)]
      rw [hfirst, traverse_chain _ hinv ops.length 0 (by omega) (by omega), hlen',
        Nat.sub_zero, ← List.range_eq_range']
  · intro hpos
    have hnext := hinv.2.2 (ops.length - 1) (by omega)
    unfold getNextReporter
    rw [hnext, if_neg (by omega)]

/-- C6 witness: a concrete two-constructor sequence (one auto-id, one
caller-supplied id). -/
theorem c6_registry_traversal_witness :
    (∀ op ∈ [Op.ctorAuto SERVO_REP default, Op.ctorWithId VL53_REP 200 default],
      op.isCtor = true) ∧
    traverseFrom
      (runState [Op.ctorAuto SERVO_REP default, Op.ctorWithId VL53_REP 200 default]
        initState) 2
      (getFirstReporter
        (runState [Op.ctorAuto SERVO_REP default, Op.ctorWithId VL53_REP 200 default]
          initState)) = List.range 2 :=
  ⟨by decide, (c6_registry_traversal _ (by decide)).2.2.1⟩

end Daws
